import Mathlib

/-!
Shallow embedding of the erlc.ts request pipeline (src/src/client.ts), the
structured error model (src/src/errors.ts) and the cache store.  Pure
functions mirror the TypeScript source; the network is abstracted as a
stream of `Response` values indexed by attempt number, and wall-clock time
as an explicit `now : Nat` (milliseconds).  The cache store (`cache.ts`) is
not part of the sources, so it is modelled from the spec where noted.
-/

namespace Erlc

/-- A loosely-typed JavaScript runtime value, used for fields whose static
type the server does not guarantee (notably `retry_after`). -/
inductive JsVal where
  | num (q : ℚ)
  | str (s : String)
  | boolean (b : Bool)
  | null
deriving DecidableEq

/-- JavaScript truthiness of a `JsVal`. -/
def JsVal.truthy : JsVal → Bool
  | .num q => q != 0
  | .str s => s != ""
  | .boolean b => b
  | .null => false

/-- JS truthiness of an optional string (`undefined` and `""` are falsy). -/
def truthyStr : Option String → Bool
  | some s => s != ""
  | none => false

/-- JS truthiness of an optional number (`undefined` and `0` are falsy). -/
def truthyNat : Option Nat → Bool
  | some n => n != 0
  | none => false

/-- The parsed JSON body of a non-2xx response (inbound error shape
`{code?, message?, retry_after?}`, plus the `errorCode` alias that
`shouldRetry` also inspects).  `code`/`errorCode` are numeric per the
declared API shape; `retry_after` is kept loosely typed. -/
structure ErrorBody where
  code : Option Int := none
  errorCode : Option Int := none
  message : Option String := none
  retry_after : Option JsVal := none
deriving DecidableEq

/-- `ErrorCode.RATE_LIMITED` from src/src/types.ts. -/
def ErrorCode.RATE_LIMITED : Int := 4001

/-- `ErrorCode.SERVER_OFFLINE` from src/src/types.ts. -/
def ErrorCode.SERVER_OFFLINE : Int := 3002

/-- The structured API error raised by the pipeline (src/src/errors.ts,
class `PRCAPIError`). -/
structure PRCAPIError where
  name : String := "PRCAPIError"
  code : Int
  message : String
  retryAfter : Option JsVal := none
deriving DecidableEq

/-- `PRCAPIError.fromResponse` (src/src/errors.ts lines 14-20):
`code = body?.code || 0`, `message = body?.message || "HTTP <status>: <statusText>"`,
`retryAfter = body?.retry_after`.  The `||` fallbacks are JS truthiness. -/
def PRCAPIError.fromResponse (status : Nat) (statusText : String) (body : ErrorBody) :
    PRCAPIError :=
  { code :=
      match body.code with
      | some c => if c = 0 then 0 else c
      | none => 0
    message :=
      match body.message with
      | some m => if m = "" then "HTTP " ++ toString status ++ ": " ++ statusText else m
      | none => "HTTP " ++ toString status ++ ": " ++ statusText
    retryAfter := body.retry_after }

/-- `isRateLimit` getter: `this.code === ErrorCode.RATE_LIMITED`. -/
def PRCAPIError.isRateLimit (e : PRCAPIError) : Bool :=
  e.code == ErrorCode.RATE_LIMITED

/-- `isServerOffline` getter: `this.code === ErrorCode.SERVER_OFFLINE`. -/
def PRCAPIError.isServerOffline (e : PRCAPIError) : Bool :=
  e.code == ErrorCode.SERVER_OFFLINE

/-- `RateLimiter.waitForRetryAfter` (src/src/errors.ts lines 57-61): waits
`retryAfter * 1000` milliseconds when the argument is a positive number.
Returns the wait performed, in milliseconds. -/
def RateLimiter.waitForRetryAfter (retryAfter : ℚ) : ℚ :=
  if retryAfter > 0 then retryAfter * 1000 else 0

/-- A cache entry `{value, storedAt, maxAge}` (spec section 3).  The stored
value is an `Option V` because the pipeline may cache a JS `null` body. -/
structure CacheEntry (V : Type) where
  data : Option V
  storedAt : Nat
  maxAge : Nat
deriving DecidableEq

/-- The two cache backends (spec section 4.1). -/
inductive CacheBackend where
  | memory
  | redis
deriving DecidableEq

/-- Modelled from the spec: `cache.ts` is not under src/.  Spec section 4.1
describes a key-value store with per-entry expiry and a pluggable backend
(local memory vs. networked Redis store). -/
structure Cache (V : Type) where
  backend : CacheBackend
  defaultMaxAge : Nat
  entries : List (String × CacheEntry V)
deriving DecidableEq

/-- Modelled from the spec: the `new Cache(cacheMaxAge, redisUrl, ...)`
constructor used at src/src/client.ts line 43.  The networked backend is
selected when a Redis URL is supplied; the default entry max-age falls back
to the library default of 30000 ms (spec 4.3 step 6). -/
def Cache.create {V : Type} (cacheMaxAge : Option Nat) (redisUrl : Option String) : Cache V :=
  { backend := if redisUrl.isSome then CacheBackend.redis else CacheBackend.memory
    defaultMaxAge := cacheMaxAge.getD 30000
    entries := [] }

/-- Modelled from the spec: `get(key)` returns the stored value while
`now - storedAt <= maxAge`, and treats an expired or absent entry as
absent (spec sections 3 and 4.1). -/
def Cache.get {V : Type} (c : Cache V) (key : String) (now : Nat) : Option V :=
  match c.entries.find? (fun p => p.1 == key) with
  | some p => if now - p.2.storedAt ≤ p.2.maxAge then p.2.data else none
  | none => none

/-- Modelled from the spec: `set(key, value, maxAge?)` replaces any previous
entry under the key; the entry max-age falls back to the store default
(spec sections 3 and 4.1). -/
def Cache.set {V : Type} (c : Cache V) (key : String) (data : Option V)
    (maxAge : Option Nat) (now : Nat) : Cache V :=
  { c with
    entries :=
      (key, { data := data, storedAt := now, maxAge := maxAge.getD c.defaultMaxAge })
        :: c.entries.filter (fun p => p.1 != key) }

/-- Modelled from the spec: the raw-entry debug accessor of the cache store
is memory-backend-only and fails explicitly (typed error) on the networked
backend (spec 4.1, "Debug accessors ... must fail explicitly"). -/
def Cache.getRawEntry {V : Type} (c : Cache V) (key : String) :
    Except String (Option (CacheEntry V)) :=
  match c.backend with
  | .redis => .error "getRawEntry is only available with in-memory cache"
  | .memory => .ok ((c.entries.find? (fun p => p.1 == key)).map (fun p => p.2))

/-- Modelled from the spec: key enumeration is memory-backend-only and fails
explicitly (typed error) on the networked backend (spec 4.1). -/
def Cache.getAllKeys {V : Type} (c : Cache V) : Except String (List String) :=
  match c.backend with
  | .redis => .error "getAllKeys is only available with in-memory cache"
  | .memory => .ok (c.entries.map (fun p => p.1))

/-- Constructor options (src/src/types.ts, `PRCClientOptions`). -/
structure PRCClientOptions where
  serverKey : Option String := none
  globalKey : Option String := none
  baseURL : Option String := none
  cache : Option Bool := none
  cacheMaxAge : Option Nat := none
  redisUrl : Option String := none
deriving DecidableEq

/-- Per-call method options (`MethodOptions`): `{cache?, cacheMaxAge?}`. -/
structure MethodOptions where
  cache : Option Bool := none
  cacheMaxAge : Option Nat := none
deriving DecidableEq

/-- `buildHeaders` (src/src/client.ts lines 51-66): fixed content headers
plus whichever credential headers are configured (JS truthiness checks). -/
def buildHeaders (globalKey serverKey : Option String) : List (String × String) :=
  [("Content-Type", "application/json"), ("Accept", "*/*")]
    ++ (if truthyStr globalKey then [("Authorization", globalKey.getD "")] else [])
    ++ (if truthyStr serverKey then [("Server-Key", serverKey.getD "")] else [])

/-- The client instance state (src/src/client.ts fields). -/
structure PRCClient (V : Type) where
  baseURL : String
  serverKey : Option String
  globalKey : Option String
  cache : Option (Cache V)
  headers : List (String × String)
deriving DecidableEq

/-- The `PRCClient` constructor (src/src/client.ts lines 35-45): throws when
`!options.serverKey && !options.globalKey` (JS truthiness, so an empty
string counts as missing); otherwise builds the instance.  `cache` is
non-null unless caching was disabled with exactly `cache: false`. -/
def PRCClient.create (V : Type) (options : PRCClientOptions) :
    Except String (PRCClient V) :=
  if truthyStr options.serverKey = false ∧ truthyStr options.globalKey = false then
    Except.error "Either serverKey or globalKey must be provided"
  else
    Except.ok
      { baseURL :=
          match options.baseURL with
          | some b => if b = "" then "https://api.policeroleplay.community/v1" else b
          | none => "https://api.policeroleplay.community/v1"
        serverKey := options.serverKey
        globalKey := options.globalKey
        cache :=
          if options.cache = some false then none
          else some (Cache.create options.cacheMaxAge options.redisUrl)
        headers := buildHeaders options.globalKey options.serverKey }

/-- `Except` result carries an error. -/
def exceptIsErr {ε α : Type} : Except ε α → Bool
  | Except.error _ => true
  | Except.ok _ => false

/-- HTTP method of a pipeline call. -/
inductive Method where
  | GET
  | POST
deriving DecidableEq

/-- An abstract HTTP response delivered to one fetch attempt.  `body` is the
result of parsing the response body as JSON on the failure path (`none`
models a parse failure, which the code treats as the empty object);
`jsonData` is the decoded payload used on the success path when the
content-type indicates JSON. -/
structure Response (V : Type) where
  ok : Bool
  status : Nat
  statusText : String
  body : Option ErrorBody
  jsonContentType : Bool
  jsonData : V
deriving DecidableEq

/-- `parseResponseData` (src/src/client.ts lines 138-144): JSON content-type
yields the decoded payload, anything else yields `null`. -/
def PRCClient.parseResponseData {V : Type} (r : Response V) : Option V :=
  if r.jsonContentType then some r.jsonData else none

/-- The uniform `{data}` envelope (src/src/types.ts `APIResponse`; the
current pipeline revision returns no rate-limit info). -/
structure APIResponse (V : Type) where
  data : Option V
deriving DecidableEq

/-- How one pipeline call ends: an envelope, or a raised `PRCAPIError`. -/
inductive Outcome (V : Type) where
  | success (resp : APIResponse V)
  | apiError (e : PRCAPIError)
deriving DecidableEq

/-- Whether the outcome is a raised error. -/
def Outcome.isErr {V : Type} : Outcome V → Bool
  | .apiError _ => true
  | .success _ => false

/-- The decision of `shouldRetry` together with the waits it performed. -/
structure RetryDecision where
  retry : Bool
  waitsMs : List ℚ
deriving DecidableEq

/-- `shouldRetry` (src/src/client.ts lines 118-130): retries when the parsed
body carries `code === 4001` or `errorCode === 4001` and the retry budget is
not exhausted; before retrying it waits only when `retry_after` is a
positive number.  (The leading `errorBody &&` truthiness check is vacuous
here because a parsed-or-empty object body is always truthy.) -/
def PRCClient.shouldRetry (errorBody : ErrorBody) (retryCount maxRetries : Nat) :
    RetryDecision :=
  if (errorBody.code = some 4001 ∨ errorBody.errorCode = some 4001) ∧
      retryCount < maxRetries then
    { retry := true
      waitsMs :=
        match errorBody.retry_after with
        | some (JsVal.num q) => if q > 0 then [RateLimiter.waitForRetryAfter q] else []
        | _ => [] }
  else
    { retry := false, waitsMs := [] }

/-- `MAX_RETRIES` (src/src/client.ts line 178). -/
def MAX_RETRIES : Nat := 3

/-- The `while (true)` retry loop of `makeRequest` (src/src/client.ts lines
189-212), with an explicit fuel argument for structural recursion.  The
fuel is an artifact of the embedding: `requestLoop_isSome` below proves it
is never exhausted from `MAX_RETRIES + 1` fuel, which is what the source's
unbounded loop relies on.  Returns the outcome, the total number of network
attempts, and the rate-limit waits performed (milliseconds). -/
def requestLoop {V : Type} (resp : Nat → Response V) :
    Nat → Nat → Option (Outcome V × Nat × List ℚ)
  | 0, _ => none
  | fuel + 1, retryCount =>
    let r := resp retryCount
    if r.ok then
      some (Outcome.success ⟨PRCClient.parseResponseData r⟩, retryCount + 1, ([] : List ℚ))
    else
      let errorBody := r.body.getD {}
      let d := PRCClient.shouldRetry errorBody retryCount MAX_RETRIES
      if d.retry then
        match requestLoop resp fuel (retryCount + 1) with
        | some (out, att, ws) => some (out, att, d.waitsMs ++ ws)
        | none => none
      else
        some (Outcome.apiError
            (PRCAPIError.fromResponse r.status r.statusText errorBody),
          retryCount + 1, d.waitsMs)

/-- The cache key of a request: the endpoint path alone (src/src/client.ts
line 177); it does not mention the HTTP verb. -/
def cacheKeyFor (endpoint : String) : String := endpoint

/-- The cache-policy resolution of `makeRequest` (src/src/client.ts line
181): `method === 'GET' && (cacheOverride !== undefined ? cacheOverride :
cacheable)`. -/
def effectiveCacheable (method : Method) (cacheable : Bool)
    (cacheOverride : Option Bool) : Bool :=
  if method = Method.GET then
    match cacheOverride with
    | some o => o
    | none => cacheable
  else false

/-- `getCachedData` (src/src/client.ts lines 74-79). -/
def PRCClient.getCachedData {V : Type} (client : PRCClient V) (key : String)
    (now : Nat) : Option V :=
  match client.cache with
  | some c => c.get key now
  | none => none

/-- `setCachedData` (src/src/client.ts lines 88-92); returns the client's
cache after the write. -/
def PRCClient.setCachedData {V : Type} (client : PRCClient V) (key : String)
    (data : Option V) (maxAge : Option Nat) (now : Nat) : Option (Cache V) :=
  match client.cache with
  | some c => some (c.set key data maxAge now)
  | none => none

/-- The observable result of one `makeRequest` call: the outcome, the number
of network attempts, the waits performed, the number of cache probes, and
the cache state after the call. -/
structure RunResult (V : Type) where
  outcome : Outcome V
  attempts : Nat
  waitsMs : List ℚ
  probes : Nat
  cacheAfter : Option (Cache V)
deriving DecidableEq

/-- Placeholder loop result for the unreachable out-of-fuel case. -/
def defaultLoopResult {V : Type} : Outcome V × Nat × List ℚ :=
  (Outcome.apiError (PRCAPIError.fromResponse 0 "" {}), 0, [])

/-- `makeRequest` (src/src/client.ts lines 167-213): resolve cacheability,
probe the cache by path, on miss run the fetch/retry loop, and on a
successful response write through to the cache when cacheable. -/
def PRCClient.makeRequest {V : Type} (client : PRCClient V) (method : Method)
    (endpoint : String) (body : Option String) (cacheable : Bool)
    (cacheMaxAge : Option Nat) (cacheOverride : Option Bool)
    (resp : Nat → Response V) (now : Nat) : RunResult V :=
  let cacheKey := cacheKeyFor endpoint
  let shouldCache := effectiveCacheable method cacheable cacheOverride
  match (if shouldCache then client.getCachedData cacheKey now else none) with
  | some v =>
    { outcome := Outcome.success ⟨some v⟩
      attempts := 0
      waitsMs := []
      probes := 1
      cacheAfter := client.cache }
  | none =>
    let lr := (requestLoop resp (MAX_RETRIES + 1) 0).getD defaultLoopResult
    { outcome := lr.1
      attempts := lr.2.1
      waitsMs := lr.2.2
      probes := if shouldCache then 1 else 0
      cacheAfter :=
        match lr.1 with
        | Outcome.success env =>
          if shouldCache then client.setCachedData cacheKey env.data cacheMaxAge now
          else client.cache
        | Outcome.apiError _ => client.cache }

/-- `getServerStatus` (src/src/client.ts lines 220-222): a default-cacheable
endpoint. -/
def PRCClient.getServerStatus {V : Type} (client : PRCClient V)
    (options : Option MethodOptions) (resp : Nat → Response V) (now : Nat) :
    RunResult V :=
  client.makeRequest Method.GET "/server" none true
    (options.bind MethodOptions.cacheMaxAge) (options.bind MethodOptions.cache) resp now

/-- `getJoinLogs` (src/src/client.ts lines 274-277): computes the guard
`options?.cache === true && !!options?.cacheMaxAge` as the call-site
`cacheable` default, and forwards `options?.cache` as `cacheOverride`. -/
def PRCClient.getJoinLogs {V : Type} (client : PRCClient V)
    (options : Option MethodOptions) (resp : Nat → Response V) (now : Nat) :
    RunResult V :=
  let shouldCache :=
    (options.bind MethodOptions.cache == some true) &&
      truthyNat (options.bind MethodOptions.cacheMaxAge)
  client.makeRequest Method.GET "/server/joinlogs" none shouldCache
    (options.bind MethodOptions.cacheMaxAge) (options.bind MethodOptions.cache) resp now

/-- `getKillLogs` (src/src/client.ts lines 284-287). -/
def PRCClient.getKillLogs {V : Type} (client : PRCClient V)
    (options : Option MethodOptions) (resp : Nat → Response V) (now : Nat) :
    RunResult V :=
  let shouldCache :=
    (options.bind MethodOptions.cache == some true) &&
      truthyNat (options.bind MethodOptions.cacheMaxAge)
  client.makeRequest Method.GET "/server/killlogs" none shouldCache
    (options.bind MethodOptions.cacheMaxAge) (options.bind MethodOptions.cache) resp now

/-- `executeCommand` (src/src/client.ts lines 314-316): the single POST
endpoint; `makeRequest` is called with its default cache arguments. -/
def PRCClient.executeCommand {V : Type} (client : PRCClient V) (command : String)
    (resp : Nat → Response V) (now : Nat) : RunResult V :=
  client.makeRequest Method.POST "/server/command" (some command) false none none resp now

/-- `getCacheEntry` (src/src/client.ts lines 341-349): wraps the cache
store's raw-entry accessor in try/catch and returns `null` on any error. -/
def PRCClient.getCacheEntry {V : Type} (client : PRCClient V) (key : String) :
    Option V :=
  match client.cache with
  | none => none
  | some c =>
    match c.getRawEntry key with
    | Except.error _ => none
    | Except.ok (some entry) => entry.data
    | Except.ok none => none

/-- `getCacheKeys` (src/src/client.ts lines 356-363): wraps the cache
store's key enumeration in try/catch and returns `[]` on any error, even
though its own doc comment says it throws for a Redis cache. -/
def PRCClient.getCacheKeys {V : Type} (client : PRCClient V) : List String :=
  match client.cache with
  | none => []
  | some c =>
    match c.getAllKeys with
    | Except.error _ => []
    | Except.ok ks => ks

/-- A client over a memory-backed cache, as produced by
`new PRCClient({serverKey: "sk"})`. -/
def memClient : PRCClient Nat :=
  { baseURL := "https://api.policeroleplay.community/v1"
    serverKey := some "sk"
    globalKey := none
    cache := some (Cache.create none none)
    headers := buildHeaders none (some "sk") }

/-- A successful JSON response carrying the payload `v`. -/
def okResp (v : Nat) : Response Nat :=
  { ok := true, status := 200, statusText := "OK", body := none
    jsonContentType := true, jsonData := v }

/-- A 429 response whose parsed body is `{code: 4001}` (no `retry_after`). -/
def rateLimitedResp : Response Nat :=
  { ok := false, status := 429, statusText := "Too Many Requests"
    body := some { code := some 4001 }, jsonContentType := true, jsonData := 0 }

/-- Three rate-limited responses followed by successes. -/
def threeRateLimitsThenOk : Nat → Response Nat :=
  fun i => if i < 3 then rateLimitedResp else okResp 7

/-- A non-retryable 403 response (`{code: 2002}`, invalid server key). -/
def forbiddenResp : Response Nat :=
  { ok := false, status := 403, statusText := "Forbidden"
    body := some { code := some 2002 }, jsonContentType := true, jsonData := 0 }

/-- If `shouldRetry` decides to retry, the retry budget was not exhausted. -/
theorem shouldRetry_retry_lt {body : ErrorBody} {rc mr : Nat}
    (h : (PRCClient.shouldRetry body rc mr).retry = true) : rc < mr := by
  unfold PRCClient.shouldRetry at h
  by_cases hc : (body.code = some 4001 ∨ body.errorCode = some 4001) ∧ rc < mr
  · exact hc.2
  · rw [if_neg hc] at h
    simp at h

/-- `shouldRetry` declines once the retry budget is exhausted. -/
theorem shouldRetry_budget_exhausted (body : ErrorBody) {rc mr : Nat}
    (h : ¬ rc < mr) : (PRCClient.shouldRetry body rc mr).retry = false := by
  unfold PRCClient.shouldRetry
  rw [if_neg (fun hc => h hc.2)]

/-- `shouldRetry` accepts a rate-limited body within budget. -/
theorem shouldRetry_accepts {body : ErrorBody} {rc mr : Nat}
    (hcode : body.code = some 4001 ∨ body.errorCode = some 4001) (hrc : rc < mr) :
    (PRCClient.shouldRetry body rc mr).retry = true := by
  unfold PRCClient.shouldRetry
  rw [if_pos ⟨hcode, hrc⟩]

/-- One successful step of the retry loop. -/
theorem requestLoop_ok_step {V : Type} (resp : Nat → Response V) (fuel rc : Nat)
    (hok : (resp rc).ok = true) :
    requestLoop resp (fuel + 1) rc
      = some (Outcome.success ⟨PRCClient.parseResponseData (resp rc)⟩, rc + 1,
          ([] : List ℚ)) := by
  simp [requestLoop, hok]

/-- One retrying step of the retry loop. -/
theorem requestLoop_retry_step {V : Type} (resp : Nat → Response V) (fuel rc : Nat)
    (hok : (resp rc).ok = false)
    (hretry : (PRCClient.shouldRetry ((resp rc).body.getD {}) rc MAX_RETRIES).retry = true) :
    requestLoop resp (fuel + 1) rc
      = (requestLoop resp fuel (rc + 1)).map
          (fun x => (x.1, x.2.1,
            (PRCClient.shouldRetry ((resp rc).body.getD {}) rc MAX_RETRIES).waitsMs ++ x.2.2)) := by
  simp only [requestLoop, hok, Bool.false_eq_true, if_false, hretry, if_true]
  cases requestLoop resp fuel (rc + 1) with
  | none => rfl
  | some x => rfl

/-- One raising step of the retry loop. -/
theorem requestLoop_raise_step {V : Type} (resp : Nat → Response V) (fuel rc : Nat)
    (hok : (resp rc).ok = false)
    (hnoretry : (PRCClient.shouldRetry ((resp rc).body.getD {}) rc MAX_RETRIES).retry = false) :
    requestLoop resp (fuel + 1) rc
      = some (Outcome.apiError
            (PRCAPIError.fromResponse (resp rc).status (resp rc).statusText
              ((resp rc).body.getD {})),
          rc + 1,
          (PRCClient.shouldRetry ((resp rc).body.getD {}) rc MAX_RETRIES).waitsMs) := by
  simp only [requestLoop, hok, Bool.false_eq_true, if_false, hnoretry]

/-- The loop never runs out of fuel started from `MAX_RETRIES + 1`: every
retry consumes a unit of the bounded retry budget. -/
theorem requestLoop_isSome {V : Type} (resp : Nat → Response V) :
    ∀ fuel rc, MAX_RETRIES + 1 ≤ rc + fuel → rc ≤ MAX_RETRIES →
      (requestLoop resp fuel rc).isSome = true := by
  intro fuel
  induction fuel with
  | zero =>
    intro rc h1 h2
    omega
  | succ n ih =>
    intro rc h1 h2
    by_cases hok : (resp rc).ok = true
    · rw [requestLoop_ok_step resp n rc hok]
      rfl
    · rw [Bool.not_eq_true] at hok
      by_cases hr : (PRCClient.shouldRetry ((resp rc).body.getD {}) rc MAX_RETRIES).retry = true
      · have hlt : rc < MAX_RETRIES := shouldRetry_retry_lt hr
        rw [requestLoop_retry_step resp n rc hok hr]
        have hs := ih (rc + 1) (by omega) (by omega)
        cases hx : requestLoop resp n (rc + 1) with
        | none => rw [hx] at hs; simp at hs
        | some x => simp [hx]
      · rw [Bool.not_eq_true] at hr
        rw [requestLoop_raise_step resp n rc hok hr]
        rfl

/-- `makeRequest` on a cache hit returns the cached envelope untouched. -/
theorem makeRequest_hit {V : Type} (client : PRCClient V) (method : Method)
    (endpoint : String) (body : Option String) (cacheable : Bool)
    (cacheMaxAge : Option Nat) (cacheOverride : Option Bool)
    (resp : Nat → Response V) (now : Nat) (v : V)
    (hhit : (if effectiveCacheable method cacheable cacheOverride then
        client.getCachedData (cacheKeyFor endpoint) now else none) = some v) :
    client.makeRequest method endpoint body cacheable cacheMaxAge cacheOverride resp now
      = { outcome := Outcome.success ⟨some v⟩
          attempts := 0
          waitsMs := []
          probes := 1
          cacheAfter := client.cache } := by
  simp only [PRCClient.makeRequest]
  rw [hhit]

/-- `makeRequest` on a cache miss (or with caching off) runs the retry loop
and writes through only on success when cacheable. -/
theorem makeRequest_miss {V : Type} (client : PRCClient V) (method : Method)
    (endpoint : String) (body : Option String) (cacheable : Bool)
    (cacheMaxAge : Option Nat) (cacheOverride : Option Bool)
    (resp : Nat → Response V) (now : Nat)
    (hmiss : (if effectiveCacheable method cacheable cacheOverride then
        client.getCachedData (cacheKeyFor endpoint) now else none) = none) :
    client.makeRequest method endpoint body cacheable cacheMaxAge cacheOverride resp now
      = { outcome := ((requestLoop resp (MAX_RETRIES + 1) 0).getD defaultLoopResult).1
          attempts := ((requestLoop resp (MAX_RETRIES + 1) 0).getD defaultLoopResult).2.1
          waitsMs := ((requestLoop resp (MAX_RETRIES + 1) 0).getD defaultLoopResult).2.2
          probes := if effectiveCacheable method cacheable cacheOverride then 1 else 0
          cacheAfter :=
            match ((requestLoop resp (MAX_RETRIES + 1) 0).getD defaultLoopResult).1 with
            | Outcome.success env =>
              if effectiveCacheable method cacheable cacheOverride then
                client.setCachedData (cacheKeyFor endpoint) env.data cacheMaxAge now
              else client.cache
            | Outcome.apiError _ => client.cache } := by
  simp only [PRCClient.makeRequest]
  rw [hmiss]

/-- The attempt counter of a finished loop is bounded by start plus fuel. -/
theorem requestLoop_attempts_le {V : Type} (resp : Nat → Response V) :
    ∀ fuel rc x, requestLoop resp fuel rc = some x → x.2.1 ≤ rc + fuel := by
  intro fuel
  induction fuel with
  | zero =>
    intro rc x h
    simp [requestLoop] at h
  | succ n ih =>
    intro rc x h
    by_cases hok : (resp rc).ok = true
    · rw [requestLoop_ok_step resp n rc hok] at h
      cases h
      show rc + 1 ≤ rc + (n + 1)
      omega
    · rw [Bool.not_eq_true] at hok
      by_cases hr : (PRCClient.shouldRetry ((resp rc).body.getD {}) rc MAX_RETRIES).retry = true
      · rw [requestLoop_retry_step resp n rc hok hr] at h
        cases hx : requestLoop resp n (rc + 1) with
        | none => rw [hx] at h; simp at h
        | some y =>
          rw [hx, Option.map_some'] at h
          cases h
          have hy := ih (rc + 1) y hx
          show y.2.1 ≤ rc + (n + 1)
          omega
      · rw [Bool.not_eq_true] at hr
        rw [requestLoop_raise_step resp n rc hok hr] at h
        cases h
        show rc + 1 ≤ rc + (n + 1)
        omega

/-- C3: the effective cacheability of a `makeRequest` call equals (method is
GET) AND (`cacheOverride` when explicitly provided, otherwise the call-site
default `cacheable` flag); consequently a POST call — in particular
`executeCommand` — never probes or writes the cache, for any combination of
`cacheable` and `cacheOverride` arguments. -/
theorem post_never_probes_or_writes_cache (V : Type) :
    (∀ (method : Method) (cacheable : Bool) (cacheOverride : Option Bool),
        effectiveCacheable method cacheable cacheOverride
          = (decide (method = Method.GET) &&
              match cacheOverride with
              | some o => o
              | none => cacheable)) ∧
    (∀ (client : PRCClient V) (endpoint : String) (body : Option String)
        (cacheable : Bool) (cacheMaxAge : Option Nat) (cacheOverride : Option Bool)
        (resp : Nat → Response V) (now : Nat),
        (client.makeRequest Method.POST endpoint body cacheable cacheMaxAge
            cacheOverride resp now).probes = 0 ∧
        (client.makeRequest Method.POST endpoint body cacheable cacheMaxAge
            cacheOverride resp now).cacheAfter = client.cache) ∧
    (∀ (client : PRCClient V) (command : String) (resp : Nat → Response V) (now : Nat),
        (client.executeCommand command resp now).probes = 0 ∧
        (client.executeCommand command resp now).cacheAfter = client.cache) := by
  have hpost : ∀ (cacheable : Bool) (cacheOverride : Option Bool),
      effectiveCacheable Method.POST cacheable cacheOverride = false := by
    intro cacheable cacheOverride
    rfl
  have hmain : ∀ (client : PRCClient V) (endpoint : String) (body : Option String)
      (cacheable : Bool) (cacheMaxAge : Option Nat) (cacheOverride : Option Bool)
      (resp : Nat → Response V) (now : Nat),
      (client.makeRequest Method.POST endpoint body cacheable cacheMaxAge
          cacheOverride resp now).probes = 0 ∧
      (client.makeRequest Method.POST endpoint body cacheable cacheMaxAge
          cacheOverride resp now).cacheAfter = client.cache := by
    intro client endpoint body cacheable cacheMaxAge cacheOverride resp now
    have hm := makeRequest_miss client Method.POST endpoint body cacheable
      cacheMaxAge cacheOverride resp now
      (by rw [hpost cacheable cacheOverride]; rfl)
    rw [hm]
    refine ⟨by rw [hpost cacheable cacheOverride]; rfl, ?_⟩
    show (match ((requestLoop resp (MAX_RETRIES + 1) 0).getD defaultLoopResult).1 with
      | Outcome.success env =>
        if effectiveCacheable Method.POST cacheable cacheOverride then
          client.setCachedData (cacheKeyFor endpoint) env.data cacheMaxAge now
        else client.cache
      | Outcome.apiError _ => client.cache) = client.cache
    cases ((requestLoop resp (MAX_RETRIES + 1) 0).getD defaultLoopResult).1 with
    | success env => rw [hpost cacheable cacheOverride]; rfl
    | apiError e => rfl
  refine ⟨?_, hmain, ?_⟩
  · intro method cacheable cacheOverride
    cases method <;> cases cacheOverride <;> simp [effectiveCacheable]
  · intro client command resp now
    exact hmain client "/server/command" (some command) false none none resp now

/-- C4: when a `makeRequest` call is effectively cacheable and the cache
lookup under the key derived from the path alone yields a stored value, the
call returns that value wrapped in the envelope, performs zero network
attempts, and leaves the cache untouched; the cache key is the endpoint
path itself, independent of the HTTP verb. -/
theorem cache_hit_short_circuits {V : Type} (client : PRCClient V) (method : Method)
    (endpoint : String) (body : Option String) (cacheable : Bool)
    (cacheMaxAge : Option Nat) (cacheOverride : Option Bool)
    (resp : Nat → Response V) (now : Nat) (v : V)
    (hsc : effectiveCacheable method cacheable cacheOverride = true)
    (hhit : client.getCachedData (cacheKeyFor endpoint) now = some v) :
    client.makeRequest method endpoint body cacheable cacheMaxAge cacheOverride resp now
      = { outcome := Outcome.success ⟨some v⟩
          attempts := 0
          waitsMs := []
          probes := 1
          cacheAfter := client.cache } ∧
    cacheKeyFor endpoint = endpoint := by
  refine ⟨?_, rfl⟩
  exact makeRequest_hit client method endpoint body cacheable cacheMaxAge
    cacheOverride resp now v (by rw [if_pos hsc]; exact hhit)

/-- A client whose memory cache holds the value 5 under the path of
`getServerStatus`. -/
def warmClient : PRCClient Nat :=
  { memClient with
    cache := some
      { backend := CacheBackend.memory
        defaultMaxAge := 30000
        entries := [("/server", { data := some 5, storedAt := 0, maxAge := 30000 })] } }

/-- Witness for C4: a concrete warmed-up client is served from the cache. -/
theorem cache_hit_short_circuits_witness :
    effectiveCacheable Method.GET true none = true ∧
    warmClient.getCachedData (cacheKeyFor "/server") 0 = some 5 ∧
    warmClient.makeRequest Method.GET "/server" none true none none
        (fun _ => okResp 9) 0
      = { outcome := Outcome.success ⟨some 5⟩
          attempts := 0
          waitsMs := []
          probes := 1
          cacheAfter := warmClient.cache } := by
  refine ⟨rfl, rfl, ?_⟩
  exact (cache_hit_short_circuits warmClient Method.GET "/server" none true none
    none (fun _ => okResp 9) 0 5 rfl rfl).1

/-- C6: whenever a `makeRequest` call terminates by raising an error, the
cache state is unchanged by that call: no write-through occurs on any
failure path. -/
theorem error_outcome_leaves_cache_unchanged {V : Type} (client : PRCClient V)
    (method : Method) (endpoint : String) (body : Option String) (cacheable : Bool)
    (cacheMaxAge : Option Nat) (cacheOverride : Option Bool)
    (resp : Nat → Response V) (now : Nat)
    (h : (client.makeRequest method endpoint body cacheable cacheMaxAge
        cacheOverride resp now).outcome.isErr = true) :
    (client.makeRequest method endpoint body cacheable cacheMaxAge
        cacheOverride resp now).cacheAfter = client.cache := by
  cases hp : (if effectiveCacheable method cacheable cacheOverride then
      client.getCachedData (cacheKeyFor endpoint) now else none) with
  | some v =>
    rw [makeRequest_hit client method endpoint body cacheable cacheMaxAge
      cacheOverride resp now v hp] at h
    simp [Outcome.isErr] at h
  | none =>
    have hm := makeRequest_miss client method endpoint body cacheable cacheMaxAge
      cacheOverride resp now hp
    rw [hm] at h ⊢
    cases hl : ((requestLoop resp (MAX_RETRIES + 1) 0).getD defaultLoopResult).1 with
    | success env =>
      rw [hl] at h
      simp [Outcome.isErr] at h
    | apiError e => rfl

/-- Witness for C6: a concrete failing call (403, invalid server key) leaves
the cache unchanged. -/
theorem error_outcome_leaves_cache_unchanged_witness :
    (memClient.makeRequest Method.GET "/server" none true none none
        (fun _ => forbiddenResp) 0).outcome.isErr = true ∧
    (memClient.makeRequest Method.GET "/server" none true none none
        (fun _ => forbiddenResp) 0).cacheAfter = memClient.cache := by
  refine ⟨rfl, ?_⟩
  exact error_outcome_leaves_cache_unchanged memClient Method.GET "/server" none
    true none none (fun _ => forbiddenResp) 0 rfl

/-- C5 counterexample: a body whose `message` field is present but the empty
string falls back to the synthesized message, so the error's message does
not equal the body's message even though it is present. -/
theorem fromResponse_empty_message_falls_back :
    (PRCAPIError.fromResponse 404 "Not Found" { message := some "" }).message
        = "HTTP 404: Not Found" ∧
    ({ message := some "" } : ErrorBody).message = some "" ∧
    ("HTTP 404: Not Found" : String) ≠ "" := by
  refine ⟨rfl, rfl, by decide⟩

/-- C5 (amended): `fromResponse` yields `code` = the body's code when
present else 0, `retryAfter` = the body's `retry_after` verbatim, and
`message` = the body's message when present and non-empty; an absent or
empty (JS-falsy) message falls back to "HTTP <status>: <statusText>". -/
theorem fromResponse_field_contract (status : Nat) (statusText : String)
    (body : ErrorBody) :
    (PRCAPIError.fromResponse status statusText body).code = body.code.getD 0 ∧
    (∀ m : String, body.message = some m → m ≠ "" →
        (PRCAPIError.fromResponse status statusText body).message = m) ∧
    ((body.message = none ∨ body.message = some "") →
        (PRCAPIError.fromResponse status statusText body).message
          = "HTTP " ++ toString status ++ ": " ++ statusText) ∧
    (PRCAPIError.fromResponse status statusText body).retryAfter
      = body.retry_after := by
  refine ⟨?_, ?_, ?_, rfl⟩
  · cases hc : body.code with
    | none => simp [PRCAPIError.fromResponse, hc]
    | some c =>
      by_cases h0 : c = 0 <;> simp [PRCAPIError.fromResponse, hc, h0]
  · intro m hm hne
    simp [PRCAPIError.fromResponse, hm, hne]
  · intro hm
    cases hm with
    | inl hnone => simp [PRCAPIError.fromResponse, hnone]
    | inr hempty => simp [PRCAPIError.fromResponse, hempty]

/-- Witness for C5 at a concrete fully-populated body. -/
theorem fromResponse_field_contract_witness :
    (PRCAPIError.fromResponse 500 "Internal Server Error"
        { code := some 1002, message := some "oops",
          retry_after := some (JsVal.num 5) }).code = 1002 ∧
    (PRCAPIError.fromResponse 500 "Internal Server Error"
        { code := some 1002, message := some "oops",
          retry_after := some (JsVal.num 5) }).message = "oops" ∧
    (PRCAPIError.fromResponse 500 "Internal Server Error"
        { code := some 1002, message := some "oops",
          retry_after := some (JsVal.num 5) }).retryAfter
      = some (JsVal.num 5) := by
  have h := fromResponse_field_contract 500 "Internal Server Error"
    { code := some 1002, message := some "oops", retry_after := some (JsVal.num 5) }
  exact ⟨h.1, h.2.1 "oops" rfl (by decide), h.2.2.2⟩

/-- A Redis-backed cache store, as selected by a `redisUrl` option. -/
def redisCache : Cache Nat := Cache.create none (some "redis://localhost:6379")

/-- A client over the Redis-backed cache store. -/
def redisClient : PRCClient Nat :=
  { baseURL := "https://api.policeroleplay.community/v1"
    serverKey := some "sk"
    globalKey := none
    cache := some redisCache
    headers := buildHeaders none (some "sk") }

/-- C7 (code bug): on the networked backend the cache store's debug
accessors do fail with a typed error, but the client-level
`getCacheEntry`/`getCacheKeys` wrap them in try/catch and return the silent
wrong answers `null` and `[]` instead of failing explicitly. -/
theorem debug_accessors_swallow_redis_error :
    redisCache.getAllKeys
        = Except.error "getAllKeys is only available with in-memory cache" ∧
    redisCache.getRawEntry "/server"
        = Except.error "getRawEntry is only available with in-memory cache" ∧
    redisClient.getCacheKeys = [] ∧
    redisClient.getCacheEntry "/server" = none := by
  exact ⟨rfl, rfl, rfl, rfl⟩

/-- C8 counterexample: an options object whose `serverKey` is present but
the empty string is rejected by the constructor, although a credential is
present. -/
theorem create_empty_serverKey_rejected :
    PRCClient.create Nat { serverKey := some "", globalKey := none }
        = Except.error "Either serverKey or globalKey must be provided" ∧
    ({ serverKey := some "", globalKey := none } : PRCClientOptions).serverKey
        ≠ none := by
  refine ⟨rfl, by decide⟩

/-- C8 (amended): construction fails, synchronously and producing no client,
exactly when both `serverKey` and `globalKey` are JS-falsy (absent or the
empty string); when at least one is a non-empty string it succeeds. -/
theorem create_error_iff_no_truthy_credential (V : Type) (o : PRCClientOptions) :
    exceptIsErr (PRCClient.create V o)
      = (!truthyStr o.serverKey && !truthyStr o.globalKey) := by
  unfold PRCClient.create
  by_cases h : truthyStr o.serverKey = false ∧ truthyStr o.globalKey = false
  · rw [if_pos h]
    rw [h.1, h.2]
    rfl
  · rw [if_neg h]
    cases hs : truthyStr o.serverKey <;> cases hg : truthyStr o.globalKey
    · exact absurd ⟨hs, hg⟩ h
    · rfl
    · rfl
    · rfl

/-- C9: a body carrying `code = 4001` within the retry budget but whose
`retry_after` is absent, non-numeric, or not strictly positive still makes
`shouldRetry` return true with no wait, and the loop restarts the request
immediately, raising no error for that attempt. -/
theorem rate_limited_retry_without_wait (V : Type) (body : ErrorBody)
    (retryCount : Nat)
    (hcode : body.code = some 4001)
    (hbudget : retryCount < MAX_RETRIES)
    (hra : ∀ q : ℚ, body.retry_after = some (JsVal.num q) → ¬ q > 0) :
    (PRCClient.shouldRetry body retryCount MAX_RETRIES).retry = true ∧
    (PRCClient.shouldRetry body retryCount MAX_RETRIES).waitsMs = [] ∧
    (∀ (resp : Nat → Response V) (fuel : Nat),
        (resp retryCount).ok = false → (resp retryCount).body = some body →
        requestLoop resp (fuel + 1) retryCount
          = requestLoop resp fuel (retryCount + 1)) := by
  have hwaits : (PRCClient.shouldRetry body retryCount MAX_RETRIES).waitsMs = [] := by
    unfold PRCClient.shouldRetry
    rw [if_pos ⟨Or.inl hcode, hbudget⟩]
    show (match body.retry_after with
      | some (JsVal.num q) => if q > 0 then [RateLimiter.waitForRetryAfter q] else []
      | _ => []) = []
    cases hr : body.retry_after with
    | none => rfl
    | some jv =>
      cases jv with
      | num q => exact if_neg (hra q hr)
      | str s => rfl
      | boolean b => rfl
      | null => rfl
  refine ⟨shouldRetry_accepts (Or.inl hcode) hbudget, hwaits, ?_⟩
  intro resp fuel hok hbody
  have hretry : (PRCClient.shouldRetry ((resp retryCount).body.getD {})
      retryCount MAX_RETRIES).retry = true := by
    rw [hbody]
    exact shouldRetry_accepts (Or.inl hcode) hbudget
  rw [requestLoop_retry_step resp fuel retryCount hok hretry]
  have hw : (PRCClient.shouldRetry ((resp retryCount).body.getD {})
      retryCount MAX_RETRIES).waitsMs = [] := by
    rw [hbody]
    exact hwaits
  rw [hw]
  cases requestLoop resp fuel (retryCount + 1) with
  | none => rfl
  | some x => rfl

/-- Witness for C9 at a concrete 4001 body with no `retry_after`. -/
theorem rate_limited_retry_without_wait_witness :
    ({ code := some 4001 } : ErrorBody).code = some 4001 ∧
    (PRCClient.shouldRetry { code := some 4001 } 0 MAX_RETRIES).retry = true ∧
    (PRCClient.shouldRetry { code := some 4001 } 0 MAX_RETRIES).waitsMs = [] ∧
    requestLoop (fun _ => rateLimitedResp) (3 + 1) 0
      = requestLoop (fun _ => rateLimitedResp) 3 1 := by
  have h := rate_limited_retry_without_wait Nat { code := some 4001 } 0 rfl
    (by decide) (fun q hq => by cases hq)
  exact ⟨rfl, h.1, h.2.1, h.2.2 (fun _ => rateLimitedResp) 3 rfl rfl⟩

/-- C10: a body carrying `errorCode = 4001` triggers an automatic retry even
when its `code` field is absent; and when `code` is absent the raised
`PRCAPIError` falls back to code 0, so `isRateLimit` is false. -/
theorem errorCode_alias_triggers_retry (body : ErrorBody)
    (retryCount maxRetries status : Nat) (statusText : String)
    (hec : body.errorCode = some 4001)
    (hbudget : retryCount < maxRetries) :
    (PRCClient.shouldRetry body retryCount maxRetries).retry = true ∧
    (body.code = none →
        (PRCAPIError.fromResponse status statusText body).code = 0 ∧
        (PRCAPIError.fromResponse status statusText body).isRateLimit = false) := by
  refine ⟨shouldRetry_accepts (Or.inr hec) hbudget, fun hnone => ?_⟩
  have hc : (PRCAPIError.fromResponse status statusText body).code = 0 := by
    simp [PRCAPIError.fromResponse, hnone]
  refine ⟨hc, ?_⟩
  unfold PRCAPIError.isRateLimit
  rw [hc]
  decide

/-- Witness for C10 at a concrete `{errorCode: 4001}` body. -/
theorem errorCode_alias_triggers_retry_witness :
    (PRCClient.shouldRetry { errorCode := some 4001 } 0 3).retry = true ∧
    (PRCAPIError.fromResponse 429 "Too Many Requests"
        { errorCode := some 4001 }).code = 0 ∧
    (PRCAPIError.fromResponse 429 "Too Many Requests"
        { errorCode := some 4001 }).isRateLimit = false := by
  have h := errorCode_alias_triggers_retry { errorCode := some 4001 } 0 3 429
    "Too Many Requests" rfl (by decide)
  exact ⟨h.1, (h.2 rfl).1, (h.2 rfl).2⟩

/-- C1 (code bug): calling `getJoinLogs` with `{cache: true}` and no
explicit `cacheMaxAge` does populate the cache on a successful call: the
endpoint's own guard (`cache === true && !!cacheMaxAge`, second conjunct
below) computes false, but `options.cache` is also forwarded as
`makeRequest`'s `cacheOverride`, which takes precedence, so the decoded
data is written under "/server/joinlogs" with the default max-age. -/
theorem joinLogs_cacheTrue_without_maxAge_writes_cache :
    ((memClient.getJoinLogs (some { cache := some true, cacheMaxAge := none })
          (fun _ => okResp 7) 0).cacheAfter.bind
        (fun c => c.get "/server/joinlogs" 0))
      = some 7 ∧
    (((some ({ cache := some true, cacheMaxAge := none } : MethodOptions)).bind
          MethodOptions.cache == some true) &&
        truthyNat ((some ({ cache := some true, cacheMaxAge := none } :
          MethodOptions)).bind MethodOptions.cacheMaxAge)) = false := by
  exact ⟨rfl, rfl⟩

/-- All four responses are rate-limited: the loop spends the whole retry
budget and raises the error built from the final response. -/
theorem requestLoop_rl_exhausts {V : Type} (resp : Nat → Response V)
    (hrl : ∀ i, i < 4 → (resp i).ok = false ∧
        ((resp i).body.getD {}).code = some 4001) :
    requestLoop resp (MAX_RETRIES + 1) 0
      = some (Outcome.apiError
            (PRCAPIError.fromResponse (resp 3).status (resp 3).statusText
              ((resp 3).body.getD {})),
          4,
          (PRCClient.shouldRetry ((resp 0).body.getD {}) 0 MAX_RETRIES).waitsMs ++
            ((PRCClient.shouldRetry ((resp 1).body.getD {}) 1 MAX_RETRIES).waitsMs ++
              ((PRCClient.shouldRetry ((resp 2).body.getD {}) 2 MAX_RETRIES).waitsMs ++
                (PRCClient.shouldRetry ((resp 3).body.getD {}) 3 MAX_RETRIES).waitsMs))) := by
  have h0 := hrl 0 (by omega)
  have h1 := hrl 1 (by omega)
  have h2 := hrl 2 (by omega)
  have h3 := hrl 3 (by omega)
  have s3 : requestLoop resp 1 3
      = some (Outcome.apiError
            (PRCAPIError.fromResponse (resp 3).status (resp 3).statusText
              ((resp 3).body.getD {})),
          4, (PRCClient.shouldRetry ((resp 3).body.getD {}) 3 MAX_RETRIES).waitsMs) :=
    requestLoop_raise_step resp 0 3 h3.1
      (shouldRetry_budget_exhausted _ (by simp [MAX_RETRIES]))
  have s2 : requestLoop resp 2 2
      = (requestLoop resp 1 3).map
          (fun x => (x.1, x.2.1,
            (PRCClient.shouldRetry ((resp 2).body.getD {}) 2 MAX_RETRIES).waitsMs ++ x.2.2)) :=
    requestLoop_retry_step resp 1 2 h2.1
      (shouldRetry_accepts (Or.inl h2.2) (by simp [MAX_RETRIES]))
  rw [s3, Option.map_some'] at s2
  have s1 : requestLoop resp 3 1
      = (requestLoop resp 2 2).map
          (fun x => (x.1, x.2.1,
            (PRCClient.shouldRetry ((resp 1).body.getD {}) 1 MAX_RETRIES).waitsMs ++ x.2.2)) :=
    requestLoop_retry_step resp 2 1 h1.1
      (shouldRetry_accepts (Or.inl h1.2) (by simp [MAX_RETRIES]))
  rw [s2, Option.map_some'] at s1
  have s0 : requestLoop resp 4 0
      = (requestLoop resp 3 1).map
          (fun x => (x.1, x.2.1,
            (PRCClient.shouldRetry ((resp 0).body.getD {}) 0 MAX_RETRIES).waitsMs ++ x.2.2)) :=
    requestLoop_retry_step resp 3 0 h0.1
      (shouldRetry_accepts (Or.inl h0.2) (by simp [MAX_RETRIES]))
  rw [s1, Option.map_some'] at s0
  exact s0

/-- C2 (amended): a `makeRequest` call makes at most 4 network attempts (the
initial attempt plus at most `MAX_RETRIES = 3` rate-limit retries) and the
retry loop always terminates within that budget; after 4 consecutive
responses whose parsed body carries code 4001 (not 3 — after 3 the pipeline
performs a fourth attempt instead of raising), the pipeline raises a
`PRCAPIError` whose `isRateLimit` getter is true. -/
theorem retry_bound_and_rate_limit_exhaustion {V : Type} (client : PRCClient V)
    (method : Method) (endpoint : String) (body : Option String) (cacheable : Bool)
    (cacheMaxAge : Option Nat) (cacheOverride : Option Bool)
    (resp : Nat → Response V) (now : Nat)
    (hmiss : client.getCachedData (cacheKeyFor endpoint) now = none)
    (hrl : ∀ i, i < 4 → (resp i).ok = false ∧
        ((resp i).body.getD {}).code = some 4001) :
    (∀ (resp' : Nat → Response V),
        (requestLoop resp' (MAX_RETRIES + 1) 0).isSome = true) ∧
    (∀ (client' : PRCClient V) (method' : Method) (endpoint' : String)
        (body' : Option String) (cacheable' : Bool) (cacheMaxAge' : Option Nat)
        (cacheOverride' : Option Bool) (resp' : Nat → Response V) (now' : Nat),
        (client'.makeRequest method' endpoint' body' cacheable' cacheMaxAge'
            cacheOverride' resp' now').attempts ≤ 4) ∧
    (∃ e : PRCAPIError,
        (client.makeRequest method endpoint body cacheable cacheMaxAge
            cacheOverride resp now).outcome = Outcome.apiError e ∧
        e.isRateLimit = true ∧
        (client.makeRequest method endpoint body cacheable cacheMaxAge
            cacheOverride resp now).attempts = 4) := by
  have htotal : ∀ (resp' : Nat → Response V),
      (requestLoop resp' (MAX_RETRIES + 1) 0).isSome = true := by
    intro resp'
    exact requestLoop_isSome resp' (MAX_RETRIES + 1) 0 (by omega) (by omega)
  have hbound : ∀ (client' : PRCClient V) (method' : Method) (endpoint' : String)
      (body' : Option String) (cacheable' : Bool) (cacheMaxAge' : Option Nat)
      (cacheOverride' : Option Bool) (resp' : Nat → Response V) (now' : Nat),
      (client'.makeRequest method' endpoint' body' cacheable' cacheMaxAge'
          cacheOverride' resp' now').attempts ≤ 4 := by
    intro client' method' endpoint' body' cacheable' cacheMaxAge' cacheOverride' resp' now'
    cases hp : (if effectiveCacheable method' cacheable' cacheOverride' then
        client'.getCachedData (cacheKeyFor endpoint') now' else none) with
    | some v =>
      rw [makeRequest_hit client' method' endpoint' body' cacheable' cacheMaxAge'
        cacheOverride' resp' now' v hp]
      simp
    | none =>
      rw [makeRequest_miss client' method' endpoint' body' cacheable' cacheMaxAge'
        cacheOverride' resp' now' hp]
      cases hl : requestLoop resp' (MAX_RETRIES + 1) 0 with
      | none =>
        have := htotal resp'
        rw [hl] at this
        simp at this
      | some x =>
        have hb := requestLoop_attempts_le resp' (MAX_RETRIES + 1) 0 x hl
        have hmr : MAX_RETRIES = 3 := rfl
        rw [hmr] at hb
        show ((some x).getD defaultLoopResult).2.1 ≤ 4
        rw [Option.getD_some]
        omega
  refine ⟨htotal, hbound, ?_⟩
  have hloop := requestLoop_rl_exhausts resp hrl
  have hprobe : (if effectiveCacheable method cacheable cacheOverride then
      client.getCachedData (cacheKeyFor endpoint) now else none) = none := by
    by_cases hsc : effectiveCacheable method cacheable cacheOverride = true
    · rw [if_pos hsc]; exact hmiss
    · rw [if_neg hsc]
  have hm := makeRequest_miss client method endpoint body cacheable cacheMaxAge
    cacheOverride resp now hprobe
  rw [hm]
  refine ⟨PRCAPIError.fromResponse (resp 3).status (resp 3).statusText
    ((resp 3).body.getD {}), ?_, ?_, ?_⟩
  · show ((requestLoop resp (MAX_RETRIES + 1) 0).getD defaultLoopResult).1 = _
    rw [hloop]
    rfl
  · have h3 := (hrl 3 (by omega)).2
    unfold PRCAPIError.isRateLimit
    have hc : (PRCAPIError.fromResponse (resp 3).status (resp 3).statusText
        ((resp 3).body.getD {})).code = 4001 := by
      simp [PRCAPIError.fromResponse, h3]
    rw [hc]
    decide
  · show ((requestLoop resp (MAX_RETRIES + 1) 0).getD defaultLoopResult).2.1 = 4
    rw [hloop]
    rfl

/-- Witness for C2: a concrete stream of nothing but 4001 responses. -/
theorem retry_bound_and_rate_limit_exhaustion_witness :
    memClient.getCachedData (cacheKeyFor "/server") 0 = none ∧
    (memClient.makeRequest Method.GET "/server" none true none none
        (fun _ => rateLimitedResp) 0).attempts = 4 ∧
    (memClient.makeRequest Method.GET "/server" none true none none
        (fun _ => rateLimitedResp) 0).outcome.isErr = true := by
  have h := retry_bound_and_rate_limit_exhaustion memClient Method.GET "/server"
    none true none none (fun _ => rateLimitedResp) 0 rfl
    (fun i _ => ⟨rfl, rfl⟩)
  obtain ⟨e, he, hrl', hatt⟩ := h.2.2
  refine ⟨rfl, hatt, ?_⟩
  rw [he]
  rfl

/-- C2 counterexample: after exactly 3 consecutive 4001 responses the
pipeline does not raise — it performs a fourth network attempt and, when
that succeeds, returns the envelope. -/
theorem three_rate_limits_then_success_returns :
    (memClient.makeRequest Method.GET "/server" none true none none
        threeRateLimitsThenOk 0).outcome
      = Outcome.success ⟨some 7⟩ ∧
    (memClient.makeRequest Method.GET "/server" none true none none
        threeRateLimitsThenOk 0).attempts = 4 ∧
    (memClient.makeRequest Method.GET "/server" none true none none
        threeRateLimitsThenOk 0).outcome.isErr = false := by
  exact ⟨rfl, rfl, rfl⟩

end Erlc
